import Mathlib

/-!
Verification of the human-in-the-loop async task engine of the
claude-telegram-relay repository.

The development shallowly embeds the relevant source functions:

* the response classifier `parseClaudeResponse` and the keyboard builder
  `buildTaskKeyboard` (task-queue module),
* the task store operations and `handleTaskResponse`, `handleTaskCallback`,
  `checkStaleTasks` (task-queue module; the thin Supabase row helpers that
  module imports are modelled from the specification),
* the pause and resume machinery of `processWithAnthropic`
  (lib/anthropic-processor.ts): `compressMessages`, the pause-metadata
  write and the resumed message-list construction,
* the subprocess runner `callClaude` / `callClaudeStreaming`
  (twinmind-sync.ts): the timeout branch and `isClaudeErrorResponse`,
* the process lock `acquireLock` (bot module, reproduced in the
  security documentation).

Strings are treated as lists of code points; the JavaScript regular
expressions of the classifier are embedded as explicit character scanners
with the same matching semantics on the ASCII inputs the relay handles.
-/

namespace Relay

/-- ASCII whitespace, matching the JavaScript regex class backslash-s on the
ASCII range: space, tab, line feed, carriage return, vertical tab, form feed. -/
def isSpaceChar (c : Char) : Bool :=
  c = ' ' || c = '\t' || c = '\n' || c = '\r' || c = Char.ofNat 11 || c = Char.ofNat 12

/-- JavaScript String.prototype.trim on a character list. -/
def trimChars (l : List Char) : List Char :=
  ((l.dropWhile isSpaceChar).reverse.dropWhile isSpaceChar).reverse

/-- Lower-casing, as String.prototype.toLowerCase on ASCII input. -/
def lowerChars (l : List Char) : List Char :=
  l.map Char.toLower

/-- Does the list start with the given pattern (String.prototype.startsWith)? -/
def startsWithL : List Char → List Char → Bool
  | _, [] => true
  | [], _ :: _ => false
  | c :: cs, d :: ds => c = d && startsWithL cs ds

/-- Substring containment (String.prototype.includes). -/
def hasSubL : List Char → List Char → Bool
  | [], needle => needle.isEmpty
  | c :: t, needle => startsWithL (c :: t) needle || hasSubL t needle

/-- Does the list end with the question-mark character
(String.prototype.endsWith applied to a one-character pattern)? -/
def endsWithQm (l : List Char) : Bool :=
  match l.getLast? with
  | some c => c = '?'
  | none => false

/-- String.prototype.split with a one-character separator. -/
def splitOnChar (sep : Char) : List Char → List (List Char)
  | [] => [[]]
  | c :: cs =>
    if c = sep then [] :: splitOnChar sep cs
    else
      match splitOnChar sep cs with
      | h :: t => (c :: h) :: t
      | [] => [[c]]

/-- Array.prototype.join with the colon separator. -/
def joinColon : List (List Char) → List Char
  | [] => []
  | [x] => x
  | x :: y :: xs => x ++ ':' :: joinColon (y :: xs)

/-- JavaScript String.prototype.substring from index zero: keep the first
`n` characters. -/
def strTake (n : Nat) (s : String) : String :=
  String.mk (s.data.take n)

-- ============================================================
-- Response classifier: parseClaudeResponse (task-queue module)
-- ============================================================

/-- One inline-choice option, the label and value pairs of the task queue. -/
structure TaskOption where
  label : String
  value : String
deriving DecidableEq

/-- The result record of `parseClaudeResponse`. -/
structure ParsedResponse where
  text : String
  needsInput : Bool
  question : Option String
  options : List TaskOption
deriving DecidableEq

/-- Is dropping `k` characters of `r3` possible with a character other than a
line feed coming next?  This is the position at which the `(.+)` group of the
numbered-item regex can start after the `\s+` group matched `k` characters. -/
def capStartOk (r3 : List Char) (k : Nat) : Bool :=
  match r3.drop k with
  | c :: _ => c ≠ '\n'
  | [] => false

/-- Greedy-with-backtracking search for how many characters the `\s+` group
of the numbered-item regex consumes: the largest `k` between one and the
given bound at which the dot group can still match. -/
def bestKAux (r3 : List Char) : Nat → Option Nat
  | 0 => none
  | k + 1 => if capStartOk r3 (k + 1) then some (k + 1) else bestKAux r3 k

/-- The number of characters consumed by the `\s+` group of the numbered-item
regex when matching against `r3`, or `none` when the group cannot match. -/
def bestK (r3 : List Char) : Option Nat :=
  bestKAux r3 (r3.takeWhile isSpaceChar).length

/-- One attempt of the body of the numbered-item regex
`(?:^|\n)\s*(\d+)\.\s+(.+)` after its anchor has been consumed: returns the
digit group, the capture of `(.+)` and the unconsumed remainder. -/
def matchBody (r : List Char) : Option (List Char × List Char × List Char) :=
  let r1 := r.dropWhile isSpaceChar
  let ds := r1.takeWhile Char.isDigit
  if ds.isEmpty then none
  else
    match r1.drop ds.length with
    | '.' :: r3 =>
      match bestK r3 with
      | some k =>
        let cap := (r3.drop k).takeWhile (fun c => c ≠ '\n')
        some (ds, cap, r3.drop (k + cap.length))
      | none => none
    | _ => none

/-- Fuelled scan for the remaining matches of the global numbered-item regex:
the next anchor is the next line-feed character.  The fuel, instantiated with
the length of the text, dominates the number of characters consumed. -/
def scanRestF : Nat → List Char → List (List Char × List Char)
  | 0, _ => []
  | _, [] => []
  | fuel + 1, c :: cs =>
    if c = '\n' then
      match matchBody cs with
      | some (ds, cap, rest) => (ds, cap) :: scanRestF fuel rest
      | none => scanRestF fuel cs
    else scanRestF fuel cs

/-- All matches of the global regex `(?:^|\n)\s*(\d+)\.\s+(.+)` over the
text, in order: digit group and line capture of each numbered item. -/
def numberedScan (text : List Char) : List (List Char × List Char) :=
  match matchBody text with
  | some (ds, cap, rest) => (ds, cap) :: scanRestF rest.length rest
  | none => scanRestF text.length text

/-- The numbered matches of the classifier: each becomes an option whose
value is the numeral and whose label is the numeral, a dot, a space, and the
line capture trimmed and truncated to 64 characters. -/
def numberedOptionsOf (text : List Char) : List TaskOption :=
  (numberedScan text).map fun p =>
    { label := String.mk (p.1 ++ '.' :: ' ' :: (trimChars p.2).take 64)
      value := String.mk p.1 }

/-- The fixed choice-marker phrases of the classifier. -/
def choiceMarkers : List String :=
  [ "which would you prefer", "which do you prefer", "what would you like",
    "which should i", "which option", "please choose", "please select",
    "would you like me to", "should i", "do you want me to",
    "what do you think", "your preference", "your choice" ]

/-- Does the lower-cased text contain one of the fixed choice markers? -/
def containsChoiceMarker (text : List Char) : Bool :=
  choiceMarkers.any fun m => hasSubL (lowerChars text) m.data

/-- The last non-empty line of the text, trimmed — the candidate question of
the classifier; the empty list when every line is blank. -/
def lastNonEmptyLine (text : List Char) : List Char :=
  let lines := (splitOnChar '\n' text).filter fun l => !(trimChars l).isEmpty
  match lines.getLast? with
  | some l => trimChars l
  | none => []

/-- The fixed yes-or-no trigger phrases, matched case-insensitively against
the last line. -/
def yesNoPatternList : List String :=
  [ "should i", "would you like me to", "do you want me to", "shall i",
    "can i proceed", "go ahead" ]

/-- Does the last line match one of the yes-or-no trigger patterns? -/
def isYesNoLine (lastLine : List Char) : Bool :=
  yesNoPatternList.any fun p => hasSubL (lowerChars lastLine) p.data

/-- The synthesized binary option pair of the classifier. -/
def yesNoOptions : List TaskOption :=
  [ { label := "Yes, go ahead", value := "yes" },
    { label := "No, skip", value := "no" } ]

/-- The response classifier `parseClaudeResponse` of the task-queue module:
detects questions and choice points in raw engine output. -/
def parseClaudeResponse (output : String) : ParsedResponse :=
  let text := trimChars output.data
  if text.isEmpty then
    { text := "", needsInput := false, question := none, options := [] }
  else
    let numberedMatches := numberedOptionsOf text
    let lastLine := lastNonEmptyLine text
    let hasQuestion := endsWithQm lastLine
    let hasChoiceMarker := containsChoiceMarker text
    let needsInput := hasQuestion && (decide (2 ≤ numberedMatches.length) || hasChoiceMarker)
    let options :=
      if needsInput && numberedMatches.isEmpty then
        if isYesNoLine lastLine then yesNoOptions else numberedMatches
      else numberedMatches
    { text := String.mk text
      needsInput := needsInput
      question := if needsInput then some (String.mk lastLine) else none
      options := options.take 6 }

-- ============================================================
-- Message model of the Anthropic processor
-- ============================================================

/-- The roles of Anthropic message parameters. -/
inductive MsgRole where
  | user
  | assistant
deriving DecidableEq

/-- One content block of an Anthropic message: a text block, a tool-use
block, a tool-result block carrying a string, a tool-result block carrying
non-string content, or any other block kind. -/
inductive ContentBlock where
  | text (t : String)
  | toolUse (id : String) (name : String) (input : String)
  | toolResultStr (toolUseId : String) (content : String)
  | toolResultOther (toolUseId : String)
  | other
deriving DecidableEq

/-- The content of an Anthropic message parameter: a plain string or a list
of content blocks. -/
inductive MsgContent where
  | str (s : String)
  | blocks (bs : List ContentBlock)
deriving DecidableEq

/-- One Anthropic message parameter. -/
structure MessageParam where
  role : MsgRole
  content : MsgContent
deriving DecidableEq

/-- The per-block truncation of `compressMessages`: string tool-result
contents are cut to 500 characters and text blocks to 2000 characters;
every other block is kept unchanged. -/
def compressBlock (b : ContentBlock) : ContentBlock :=
  match b with
  | .toolResultStr id c => .toolResultStr id (strTake 500 c)
  | .text t => .text (strTake 2000 t)
  | b => b

/-- The per-message truncation of `compressMessages`: string contents are
cut to 2000 characters and block lists are compressed block by block. -/
def compressMessage (m : MessageParam) : MessageParam :=
  match m.content with
  | .str s => { m with content := .str (strTake 2000 s) }
  | .blocks bs => { m with content := .blocks (bs.map compressBlock) }

/-- The function `compressMessages` of the Anthropic processor: truncate long text fields
of a message history before storing it. -/
def compressMessages (messages : List MessageParam) : List MessageParam :=
  messages.map compressMessage

/-- The pause snapshot written into the task metadata by the ask-user pause
path of `processWithAnthropic`. -/
structure PauseMetadata where
  messages_snapshot : List MessageParam
  assistant_content : List ContentBlock
  tool_use_id : String
deriving DecidableEq

/-- The metadata record written at pause time: the compressed message
snapshot, the raw assistant content of the paused response, and the
identifier of the ask-user tool invocation. -/
def pauseMetadataOf (messages : List MessageParam)
    (responseContent : List ContentBlock) (toolUseId : String) : PauseMetadata :=
  { messages_snapshot := compressMessages messages
    assistant_content := responseContent
    tool_use_id := toolUseId }

/-- The message list handed to the engine when `processWithAnthropic` is
invoked with a resume state: the stored snapshot, the assistant message
that contained the ask-user tool use, and a synthetic tool-result turn
carrying the choice of the user. -/
def buildResumeMessages (snapshot : List MessageParam)
    (assistantContent : List ContentBlock)
    (toolUseId : String) (userChoice : String) : List MessageParam :=
  snapshot ++
    [ { role := .assistant, content := .blocks assistantContent },
      { role := .user,
        content := .blocks
          [ContentBlock.toolResultStr toolUseId ("User chose: " ++ userChoice)] } ]

/-- The message list of a fresh, non-resumed invocation of
`processWithAnthropic`: the user message alone. -/
def initialMessages (userMessage : String) : List MessageParam :=
  [ { role := .user, content := .str userMessage } ]

-- ============================================================
-- Task store model
-- ============================================================

/-- The status column of the async-task table. -/
inductive TStatus where
  | pending
  | running
  | needs_input
  | completed
  | failed
deriving DecidableEq

/-- One row of the async-task table, restricted to the columns the task
queue reads and writes. -/
structure AsyncTask where
  id : String
  chat_id : String
  original_prompt : String
  status : TStatus
  result : Option String
  session_id : Option String
  current_step : Option String
  pending_question : Option String
  pending_options : Option (List TaskOption)
  user_response : Option String
  reminder_sent : Bool
  updated_at : Nat
  metadata : Option PauseMetadata
deriving DecidableEq

/-- The task store: the rows of the async-task table. -/
abbrev TaskStore := List AsyncTask

/-- One partial row update as passed to `updateTask`.  A `none` field is
absent from the update object and leaves the column untouched; for the
clearable columns a `some none` records that the call site passed an
explicit undefined in order to clear the column. -/
structure TaskUpdate where
  status : Option TStatus := none
  result : Option String := none
  session_id : Option String := none
  current_step : Option String := none
  pending_question : Option (Option String) := none
  pending_options : Option (Option (List TaskOption)) := none
  user_response : Option String := none
  reminder_sent : Option Bool := none
  metadata : Option PauseMetadata := none
deriving DecidableEq

/-- Modelled from the spec: the store module implementing `updateTask` is
not among the sources (only its callers are).  Per the external-interface
contract it is one atomic partial row update; it refreshes the updated-at
stamp on every write, and a column a call site explicitly passes as
undefined is cleared, per the handle-choice contract that clears the
pending question and options. -/
def applyTaskUpdate (now : Nat) (u : TaskUpdate) (t : AsyncTask) : AsyncTask :=
  { t with
    status := u.status.getD t.status
    result := (u.result.map some).getD t.result
    session_id := (u.session_id.map some).getD t.session_id
    current_step := (u.current_step.map some).getD t.current_step
    pending_question := u.pending_question.getD t.pending_question
    pending_options := u.pending_options.getD t.pending_options
    user_response := (u.user_response.map some).getD t.user_response
    reminder_sent := u.reminder_sent.getD t.reminder_sent
    metadata := (u.metadata.map some).getD t.metadata
    updated_at := now }

/-- Modelled from the spec: `updateTask` applies one partial update to the
row with the given identifier. -/
def updateTask (now : Nat) (taskId : String) (u : TaskUpdate)
    (store : TaskStore) : TaskStore :=
  store.map fun t => if t.id = taskId then applyTaskUpdate now u t else t

/-- Modelled from the spec: `getTaskById` selects the row with the given
identifier. -/
def getTaskById (taskId : String) (store : TaskStore) : Option AsyncTask :=
  store.find? fun t => t.id = taskId

/-- Modelled from the spec: `createTask` of the store module is not among
the sources; per the lifecycle it allocates a fresh task in the running
state with no pending question, no options and no metadata. -/
def createdTask (id chatId prompt : String) (now : Nat) : AsyncTask :=
  { id := id, chat_id := chatId, original_prompt := prompt,
    status := .running, result := none, session_id := none,
    current_step := none, pending_question := none, pending_options := none,
    user_response := none, reminder_sent := false, updated_at := now,
    metadata := none }

-- ============================================================
-- Task queue operations (task-queue module)
-- ============================================================

/-- The session-id field of an update object written as the JavaScript
idiom of the session id or undefined: a null or empty id leaves the column
untouched. -/
def sessionIdField (sessionId : Option String) : Option String :=
  match sessionId with
  | some s => if s = "" then none else some s
  | none => none

/-- The needs-input row update written by `handleTaskResponse`: question,
options, and the first five hundred characters of the text as the current
step; a null question is passed as undefined. -/
def pauseUpdateOf (parsed : ParsedResponse) (sessionId : Option String) :
    TaskUpdate :=
  { status := some .needs_input
    session_id := sessionIdField sessionId
    current_step := some (strTake 500 parsed.text)
    pending_question :=
      match parsed.question with
      | some q => if q = "" then none else some (some q)
      | none => none
    pending_options := some (some parsed.options) }

/-- The completion row update written by `handleTaskResponse`: the final
text, truncated to ten thousand characters, as the result. -/
def completeUpdateOf (parsed : ParsedResponse) (sessionId : Option String) :
    TaskUpdate :=
  { status := some .completed
    session_id := sessionIdField sessionId
    result := some (strTake 10000 parsed.text) }

/-- The function `handleTaskResponse` of the task-queue module: classify engine output,
then either transition the task to needs-input storing the question and
options, or complete it storing the final text. -/
def handleTaskResponse (now : Nat) (taskId : String) (claudeOutput : String)
    (sessionId : Option String) (store : TaskStore) :
    (Bool × ParsedResponse) × TaskStore :=
  let parsed := parseClaudeResponse claudeOutput
  if parsed.needsInput && !parsed.options.isEmpty then
    ((parsed.needsInput, parsed),
      updateTask now taskId (pauseUpdateOf parsed sessionId) store)
  else
    ((parsed.needsInput, parsed),
      updateTask now taskId (completeUpdateOf parsed sessionId) store)

/-- The inline keyboard of a paused task: one full-width button per option
labelled with the option label and carrying the encoded callback payload,
followed by the cancel button. -/
def buildTaskKeyboard (taskId : String) (options : List TaskOption) :
    List (String × String) :=
  (options.map fun opt => (opt.label, "atask:" ++ taskId ++ ":" ++ opt.value))
    ++ [("Cancel task", "atask:" ++ taskId ++ ":cancel")]

/-- The result record of `handleTaskCallback`. -/
structure CallbackRes where
  taskId : String
  choice : String
  cancelled : Bool
deriving DecidableEq

/-- The payload parsing of `handleTaskCallback`: split the callback data on
colons; fewer than three fields or a first field other than the marker
yield nothing, otherwise the task id is the second field and the choice is
the remaining fields rejoined with colons. -/
def parseCallbackData (cb : String) : Option (String × String) :=
  let parts := splitOnChar ':' cb.data
  if parts.length < 3 || parts.head? != some "atask".data then none
  else
    some (String.mk ((parts.drop 1).head?.getD []),
      String.mk (joinColon (parts.drop 2)))

/-- The cancel update written by `handleTaskCallback`. -/
def cancelUpdate : TaskUpdate :=
  { status := some .failed, result := some "Cancelled by user" }

/-- The choice resolution of `handleTaskCallback`: map a numeric choice
value back to its option label for context, falling back to the raw value
when no option matches or none are stored. -/
def resolveChoice (task : AsyncTask) (choice : String) : String :=
  match task.pending_options with
  | some opts =>
    match opts.find? fun o => o.value = choice with
    | some opt => opt.label
    | none => choice
  | none => choice

/-- The resume row update written by `handleTaskCallback` for a non-cancel
choice: back to running with the resolved choice recorded, the pending
question and options passed as explicit undefined to clear them. -/
def choiceUpdateOf (choiceText : String) : TaskUpdate :=
  { status := some .running
    user_response := some choiceText
    pending_question := some none
    pending_options := some none }

/-- The function `handleTaskCallback` of the task-queue module: route an inline-button
tap back into the task store.  Returns the handler result, the new store,
and the list of row updates the call performed. -/
def handleTaskCallback (now : Nat) (callbackData : String)
    (store : TaskStore) :
    Option CallbackRes × TaskStore × List (String × TaskUpdate) :=
  match parseCallbackData callbackData with
  | none => (none, store, [])
  | some (taskId, choice) =>
    match getTaskById taskId store with
    | none => (none, store, [])
    | some task =>
      if choice = "cancel" then
        (some { taskId := taskId, choice := choice, cancelled := true },
          updateTask now taskId cancelUpdate store,
          [(taskId, cancelUpdate)])
      else
        let choiceText := resolveChoice task choice
        (some { taskId := taskId, choice := choiceText, cancelled := false },
          updateTask now taskId (choiceUpdateOf choiceText) store,
          [(taskId, choiceUpdateOf choiceText)])

/-- The needs-input update written by the ask-user pause path of
`processWithAnthropic`: question, options, a current-step note, and the
pause metadata holding the compressed message snapshot, the raw assistant
content and the tool-use identifier. -/
def processorPauseUpdate (question : String) (options : List TaskOption)
    (toolUseId : String) (messages : List MessageParam)
    (responseContent : List ContentBlock) : TaskUpdate :=
  { status := some .needs_input
    pending_question := some (some question)
    pending_options := some (some options)
    current_step := some ("ask_user: " ++ question)
    metadata := some (pauseMetadataOf messages responseContent toolUseId) }

-- ============================================================
-- Stale-task reminders (task-queue module)
-- ============================================================

/-- The reminder-sent update written by `checkStaleTasks`. -/
def reminderUpdate : TaskUpdate :=
  { reminder_sent := some true }

/-- Modelled from the spec: `getStaleTasks` of the store module is not
among the sources; per the remind-stale contract it scans the tasks in the
needs-input state older than the threshold that have not yet had a
reminder sent. -/
def getStaleTasks (now threshold : Nat) (store : TaskStore) : List AsyncTask :=
  store.filter fun t =>
    decide (t.status = .needs_input) && !t.reminder_sent
      && decide (threshold < now - t.updated_at)

/-- The result of one `checkStaleTasks` call: the returned reminder count,
the identifiers of the tasks reminded in the call, and the new store. -/
structure RemindResult where
  count : Nat
  ids : List String
  store : TaskStore

/-- The reminder loop of `checkStaleTasks`: skip tasks of other chats;
for each remaining stale task, when the send succeeds, mark the reminder
as sent and count it. -/
def remindFold (now : Nat) (chatId : String) (sendOk : String → Bool) :
    List AsyncTask → TaskStore → RemindResult
  | [], s => ⟨0, [], s⟩
  | t :: rest, s =>
    if t.chat_id ≠ chatId then remindFold now chatId sendOk rest s
    else if sendOk t.id then
      let r := remindFold now chatId sendOk rest
        (updateTask now t.id reminderUpdate s)
      ⟨r.count + 1, t.id :: r.ids, r.store⟩
    else remindFold now chatId sendOk rest s

/-- The function `checkStaleTasks` of the task-queue module: fetch the stale tasks and
run the reminder loop over them.  The send outcome of the messaging
transport is abstracted by the `sendOk` oracle. -/
def checkStaleTasks (now : Nat) (chatId : String) (threshold : Nat)
    (sendOk : String → Bool) (store : TaskStore) : RemindResult :=
  remindFold now chatId sendOk (getStaleTasks now threshold store) store

/-- Iterated reminder calls: how many times the task with the given
identifier is reminded across a sequence of `checkStaleTasks` calls, each
call given by its clock value and its send oracle. -/
def timesReminded (i chatId : String) (threshold : Nat) :
    List (Nat × (String → Bool)) → TaskStore → Nat
  | [], _ => 0
  | (now, ok) :: ps, s =>
    let r := checkStaleTasks now chatId threshold ok s
    r.ids.count i + timesReminded i chatId threshold ps r.store

/-- The reminder flag holds for every row with the given identifier. -/
def flagTrue (i : String) (s : TaskStore) : Prop :=
  ∀ t ∈ s, t.id = i → t.reminder_sent = true

-- ============================================================
-- Invariant and bound predicates
-- ============================================================

/-- The forward direction of the pending-question invariant: a task in the
needs-input state carries a non-null pending question. -/
def pendingInvariant (t : AsyncTask) : Prop :=
  t.status = .needs_input → t.pending_question ≠ none

/-- The per-block truncation bound of the pause-snapshot policy. -/
def blockBounded : ContentBlock → Prop
  | .text t => t.length ≤ 2000
  | .toolResultStr _ c => c.length ≤ 500
  | _ => True

/-- The per-turn truncation bound of the pause-snapshot policy. -/
def messageBounded (m : MessageParam) : Prop :=
  match m.content with
  | .str s => s.length ≤ 2000
  | .blocks bs => ∀ b ∈ bs, blockBounded b

-- ============================================================
-- Subprocess runner (twinmind-sync module)
-- ============================================================

/-- The result record of the subprocess runner. -/
structure ClaudeResult where
  text : String
  sessionId : Option String
  isError : Bool
deriving DecidableEq

/-- The fixed error signatures of `isClaudeErrorResponse`. -/
def errorPatterns : List String :=
  [ "authentication_error", "API Error: 400", "API Error: 401",
    "API Error: 403", "API Error: 429", "OAuth token has expired",
    "Failed to authenticate", "invalid_api_key", "invalidRequestError",
    "Could not process image", "overloaded_error", "rate_limit_error",
    "credit balance", "add funds", "billing", "insufficient_quota",
    "payment_required", "prompt is too long", "context_length_exceeded",
    "tokens > " ]

/-- The predicate `isClaudeErrorResponse`: does the output contain one of the fixed
error signatures? -/
def isClaudeErrorResponse (text : String) : Bool :=
  errorPatterns.any fun p => hasSubL text.data p.data

/-- The state of one spawned engine process as the runner sees it. -/
structure SpawnedProc where
  timedOut : Bool
  killed : Bool

/-- The timeout callback of `callClaude` and `callClaudeStreaming`: when
the timer fires it records the timeout and kills the process handle. -/
def timeoutHandler (s : SpawnedProc) : SpawnedProc :=
  { s with timedOut := true, killed := true }

/-- The fields of a parsed JSON result object that `callClaude` reads. -/
structure JsonResultFields where
  result : Option String
  session_id : Option String
  subtype : Option String

/-- The continuation of `callClaude` after awaiting the process output.
A `none` awaited output models the await throwing, handled by the catch
branch; JSON parsing of the engine output is abstracted by the
`parseJSON` oracle, a `none` parse modelling a parse exception. -/
def callClaudeOutcome (timedOut : Bool) (awaited : Option String)
    (outputFormat : String)
    (parseJSON : String → Option JsonResultFields) : ClaudeResult :=
  match awaited with
  | none => { text := "", sessionId := none, isError := true }
  | some output =>
    if timedOut then { text := "", sessionId := none, isError := true }
    else if isClaudeErrorResponse output then
      { text := output, sessionId := none, isError := true }
    else if outputFormat = "json" then
      match parseJSON output with
      | some r =>
        { text := r.result.getD ""
          sessionId := r.session_id
          isError := r.subtype = some "error_max_turns"
            || isClaudeErrorResponse (r.result.getD "") }
      | none =>
        { text := output, sessionId := none,
          isError := isClaudeErrorResponse output }
    else
      { text := String.mk (trimChars output.data), sessionId := none,
        isError := false }

/-- The continuation of `callClaudeStreaming` after its event loop: a
thrown loop models as no stream success; a timeout returns the empty
error result; otherwise the accumulated text substitutes for a missing
result event and the error signatures are checked. -/
def callClaudeStreamingOutcome (timedOut : Bool) (streamOk : Bool)
    (resultText textAccumulator : String)
    (sessionId : Option String) : ClaudeResult :=
  if !streamOk then { text := "", sessionId := none, isError := true }
  else if timedOut then { text := "", sessionId := none, isError := true }
  else
    let rt := if resultText = "" && textAccumulator ≠ "" then textAccumulator
      else resultText
    if isClaudeErrorResponse rt then
      { text := rt, sessionId := sessionId, isError := true }
    else
      { text := rt, sessionId := sessionId, isError := false }

-- ============================================================
-- Process lock (bot module)
-- ============================================================

/-- The lock file: its modification stamp in milliseconds and the process
identifier written into it. -/
structure LockFile where
  mtimeMs : Nat
  pid : Nat
deriving DecidableEq

/-- The function `acquireLock` of the bot module: refuse when a lock exists whose age is
under ninety seconds, otherwise write a fresh lock stamped with the
current process identity and succeed. -/
def acquireLock (nowMs : Nat) (pid : Nat) (lock : Option LockFile) :
    Bool × Option LockFile :=
  match lock with
  | some lf =>
    if nowMs - lf.mtimeMs < 90000 then (false, some lf)
    else (true, some { mtimeMs := nowMs, pid := pid })
  | none => (true, some { mtimeMs := nowMs, pid := pid })

-- ============================================================
-- Concrete fixtures used by witnesses and counterexamples
-- ============================================================

/-- A one-turn message snapshot fixture. -/
def wSnapshot9 : List MessageParam :=
  [{ role := .user, content := .str "hello" }]

/-- A paused assistant-content fixture. -/
def wContent9 : List ContentBlock :=
  [ContentBlock.toolUse "toolu_9" "ask_user" "q"]

/-- A pause-metadata fixture. -/
def wMd9 : PauseMetadata :=
  { messages_snapshot := wSnapshot9
    assistant_content := wContent9
    tool_use_id := "toolu_9" }

/-- A paused task fixture with two pending options and stored metadata. -/
def wTask9 : AsyncTask :=
  { id := "t9"
    chat_id := "c"
    original_prompt := "p"
    status := .needs_input
    result := none
    session_id := none
    current_step := none
    pending_question := some "Q?"
    pending_options := some [{ label := "1. Ship", value := "1" },
      { label := "2. Wait a week", value := "2" }]
    user_response := none
    reminder_sent := false
    updated_at := 1
    metadata := some wMd9 }

/-- A one-row store holding the paused task fixture. -/
def wStore9 : TaskStore := [wTask9]

/-- The row produced by pausing the created fixture task on a two-option
question. -/
def wPausedT1 : AsyncTask :=
  { id := "t1"
    chat_id := "chat"
    original_prompt := "prompt"
    status := .needs_input
    result := none
    session_id := none
    current_step := some "1. A\n2. B\nWhich should I pick?"
    pending_question := some "Which should I pick?"
    pending_options := some [{ label := "1. A", value := "1" },
      { label := "2. B", value := "2" }]
    user_response := none
    reminder_sent := false
    updated_at := 1
    metadata := none }

-- ============================================================
-- Helper lemmas
-- ============================================================

theorem applyTaskUpdate_id (now : Nat) (u : TaskUpdate) (t : AsyncTask) :
    (applyTaskUpdate now u t).id = t.id := rfl

theorem updateTask_ids (now : Nat) (tid : String) (u : TaskUpdate)
    (s : TaskStore) :
    (updateTask now tid u s).map (fun t => t.id) = s.map fun t => t.id := by
  induction s with
  | nil => rfl
  | cons t rest ih =>
    simp only [updateTask, List.map_cons] at *
    refine congrArg₂ _ ?_ ih
    by_cases h : t.id = tid <;> simp [h, applyTaskUpdate]

theorem getTaskById_updateTask (i j : String) (now : Nat) (u : TaskUpdate)
    (s : TaskStore) :
    getTaskById i (updateTask now j u s) =
      (getTaskById i s).map fun t =>
        if t.id = j then applyTaskUpdate now u t else t := by
  unfold getTaskById updateTask
  rw [List.find?_map]
  refine congrArg (Option.map _) (congrArg₂ _ ?_ rfl)
  funext t
  by_cases h : t.id = j <;> simp [h, applyTaskUpdate, Function.comp]

theorem splitOnChar_ne_nil (sep : Char) (l : List Char) :
    splitOnChar sep l ≠ [] := by
  cases l with
  | nil => simp [splitOnChar]
  | cons c cs =>
    unfold splitOnChar
    by_cases h : c = sep
    · simp [h]
    · simp only [h, if_neg, if_false]
      split <;> simp_all

theorem splitOnChar_cons (sep c : Char) (cs : List Char) :
    splitOnChar sep (c :: cs) =
      if c = sep then [] :: splitOnChar sep cs
      else
        match splitOnChar sep cs with
        | h :: t => (c :: h) :: t
        | [] => [[c]] := rfl

theorem splitOnChar_append (sep : Char) (l1 l2 : List Char)
    (h : sep ∉ l1) :
    splitOnChar sep (l1 ++ sep :: l2) = l1 :: splitOnChar sep l2 := by
  induction l1 with
  | nil => simp [splitOnChar]
  | cons c cs ih =>
    have hc : ¬ c = sep := fun he => h (he ▸ List.mem_cons_self c cs)
    have hcs : sep ∉ cs := fun hm => h (List.mem_cons_of_mem c hm)
    rw [List.cons_append, splitOnChar_cons, if_neg hc, ih hcs]

theorem joinColon_split (l : List Char) :
    joinColon (splitOnChar ':' l) = l := by
  induction l with
  | nil => rfl
  | cons c cs ih =>
    unfold splitOnChar
    by_cases h : c = ':'
    · subst h
      simp only [if_pos rfl]
      obtain ⟨x, xs, hx⟩ :
          ∃ x xs, splitOnChar ':' cs = x :: xs := by
        cases hsp : splitOnChar ':' cs with
        | nil => exact absurd hsp (splitOnChar_ne_nil ':' cs)
        | cons x xs => exact ⟨x, xs, rfl⟩
      rw [hx]
      rw [hx] at ih
      simpa [joinColon] using ih
    · simp only [h, if_false]
      cases hsp : splitOnChar ':' cs with
      | nil => exact absurd hsp (splitOnChar_ne_nil ':' cs)
      | cons x xs =>
        rw [hsp] at ih
        cases xs with
        | nil => simpa [joinColon] using ih
        | cons y ys => simpa [joinColon] using ih

theorem length_numberedOptionsOf (t : List Char) :
    (numberedOptionsOf t).length = (numberedScan t).length := by
  simp [numberedOptionsOf]

-- ============================================================
-- Claim theorems
-- ============================================================

/-- Claim C7 counterexample: at a heartbeat age of exactly ninety seconds
the lock is acquired although the age does not exceed the threshold, so
returning true is not equivalent to the age exceeding ninety seconds. -/
theorem claim7_lock_boundary_cex :
    (acquireLock 90000 7 (some { mtimeMs := 0, pid := 7 })).1 = true
    ∧ ¬ (90000 - (0 : Nat) > 90000) := by
  exact ⟨rfl, by decide⟩

/-- Claim C7 (amended): acquire succeeds exactly when no lock exists or the
age of the existing lock is at least (rather than strictly above) the
ninety-second threshold; the decision ignores the process identity of both
the caller and the lock holder. -/
theorem claim7_lock_staleness :
    ∀ (now pid : Nat) (lock : Option LockFile),
      ((acquireLock now pid lock).1 = true ↔
        ∀ lf, lock = some lf → 90000 ≤ now - lf.mtimeMs)
      ∧ (acquireLock now pid lock).1 = (acquireLock now (pid + 1) lock).1 := by
  intro now pid lock
  constructor
  · cases lock with
    | none => simp [acquireLock]
    | some lf =>
      by_cases h : now - lf.mtimeMs < 90000
      · simp only [acquireLock, if_pos h]
        simp only [show ((false, some lf).1 = true) = False by simp]
        constructor
        · intro hfalse; exact hfalse.elim
        · intro hall
          exact absurd (hall lf rfl) (by omega)
      · simp only [acquireLock, if_neg h]
        constructor
        · rintro - lf' he
          cases he
          omega
        · intro _
          trivial
  · cases lock with
    | none => rfl
    | some lf => by_cases h : now - lf.mtimeMs < 90000 <;> simp [acquireLock, h]

/-- Claim C7 witness: a fresh lock (age fifty seconds) is refused and a
stale lock (age one hundred seconds) is taken over, also when the process
identities differ. -/
theorem claim7_lock_staleness_witness :
    (acquireLock 100000 3 (some { mtimeMs := 0, pid := 9 })).1 = true
    ∧ (acquireLock 50000 3 (some { mtimeMs := 0, pid := 3 })).1 = false := by
  constructor
  · exact (claim7_lock_staleness 100000 3 (some { mtimeMs := 0, pid := 9 })).1.mpr
      (by rintro lf he; cases he; decide)
  · decide

/-- Claim C4: the timeout timer callback kills the process handle and
records the timeout, and a timed-out invocation of either runner returns
the empty text with the error flag set — never a non-error result and
never non-empty text. -/
theorem claim4_timeout_kill :
    (∀ s : SpawnedProc,
      (timeoutHandler s).killed = true ∧ (timeoutHandler s).timedOut = true)
    ∧ (∀ (awaited : Option String) (outputFormat : String)
        (parseJSON : String → Option JsonResultFields),
        callClaudeOutcome true awaited outputFormat parseJSON =
          { text := "", sessionId := none, isError := true })
    ∧ (∀ (streamOk : Bool) (resultText textAccumulator : String)
        (sessionId : Option String),
        callClaudeStreamingOutcome true streamOk resultText textAccumulator
            sessionId =
          { text := "", sessionId := none, isError := true }) := by
  refine ⟨fun s => ⟨rfl, rfl⟩, fun awaited fmt pj => ?_, fun ok rt ta sid => ?_⟩
  · cases awaited <;> simp [callClaudeOutcome]
  · cases ok <;> simp [callClaudeStreamingOutcome]

/-- Claim C9 counterexample: the assistant content of the pause metadata is
stored uncompressed — a text block of 2001 characters is persisted
unchanged, so not everything in the pause metadata is size-bounded. -/
theorem claim9_assistant_unbounded_cex :
    (pauseMetadataOf []
        [ContentBlock.text (String.mk (List.replicate 2001 'a'))]
        "toolu_1").assistant_content
      = [ContentBlock.text (String.mk (List.replicate 2001 'a'))]
    ∧ 2000 < (String.mk (List.replicate 2001 'a')).length := by
  refine ⟨rfl, ?_⟩
  show 2000 < (List.replicate 2001 'a').length
  rw [List.length_replicate]
  omega

/-- Claim C9 (amended): every message of the snapshot persisted at pause
time is per-turn bounded — string contents and text blocks to 2000
characters, string tool-result contents to 500 — while the paused
assistant content is stored without truncation. -/
theorem claim9_snapshot_bounded :
    (∀ (messages : List MessageParam) (responseContent : List ContentBlock)
        (toolUseId : String),
      ∀ m ∈ (pauseMetadataOf messages responseContent
          toolUseId).messages_snapshot, messageBounded m)
    ∧ (∀ (messages : List MessageParam) (responseContent : List ContentBlock)
        (toolUseId : String),
        (pauseMetadataOf messages responseContent
            toolUseId).assistant_content = responseContent) := by
  constructor
  · intro messages responseContent toolUseId m hm
    simp only [pauseMetadataOf, compressMessages, List.mem_map] at hm
    obtain ⟨m0, -, rfl⟩ := hm
    unfold compressMessage messageBounded
    cases hc : m0.content with
    | str s =>
      simp only [hc]
      show (strTake 2000 s).length ≤ 2000
      show (s.data.take 2000).length ≤ 2000
      rw [List.length_take]
      exact Nat.min_le_left _ _
    | blocks bs =>
      simp only [hc]
      intro b hb
      simp only [List.mem_map] at hb
      obtain ⟨b0, -, rfl⟩ := hb
      unfold compressBlock blockBounded
      cases b0 with
      | text t =>
        show (t.data.take 2000).length ≤ 2000
        rw [List.length_take]
        exact Nat.min_le_left _ _
      | toolResultStr id c =>
        show (c.data.take 500).length ≤ 500
        rw [List.length_take]
        exact Nat.min_le_left _ _
      | toolUse id name input => trivial
      | toolResultOther id => trivial
      | other => trivial
  · intro messages responseContent toolUseId
    rfl

/-- Claim C9 witness: the snapshot of a concrete one-turn history written
at pause time is bounded. -/
theorem claim9_snapshot_bounded_witness :
    messageBounded { role := .user, content := .str "hello" } :=
  claim9_snapshot_bounded.1 [{ role := .user, content := .str "hello" }]
    [] "toolu_1" { role := .user, content := .str "hello" } (by decide)

/-- Claim C2: the classifier reports needs-input exactly when the last
non-empty line of the trimmed output ends with a question mark and either
at least two numbered options were extracted or the full text contains a
fixed choice-marker phrase; in particular one numbered item with a
trailing question and no marker does not pause, two numbered items do. -/
theorem claim2_classifier_threshold :
    (∀ s : String,
      (parseClaudeResponse s).needsInput = true ↔
        (endsWithQm (lastNonEmptyLine (trimChars s.data)) = true ∧
          (2 ≤ (numberedScan (trimChars s.data)).length ∨
            containsChoiceMarker (trimChars s.data) = true)))
    ∧ (parseClaudeResponse "1. Ship the release\nWhat next?").needsInput
        = false
    ∧ (parseClaudeResponse
        "1. Ship the release\n2. Wait a week\nWhat next?").needsInput
        = true := by
  refine ⟨?_, by decide, by decide⟩
  intro s
  by_cases h : (trimChars s.data).isEmpty = true
  · have h0 : trimChars s.data = [] := by
      cases hl : trimChars s.data with
      | nil => rfl
      | cons a as => rw [hl] at h; simp [List.isEmpty] at h
    have hL : (parseClaudeResponse s).needsInput = false := by
      simp [parseClaudeResponse, h]
    rw [hL, h0]
    decide
  · have hL : (parseClaudeResponse s).needsInput =
        (endsWithQm (lastNonEmptyLine (trimChars s.data))
          && (decide (2 ≤ (numberedOptionsOf (trimChars s.data)).length)
            || containsChoiceMarker (trimChars s.data))) := by
      simp [parseClaudeResponse, h]
    rw [hL, length_numberedOptionsOf]
    simp [Bool.and_eq_true, Bool.or_eq_true, decide_eq_true_iff]

/-- Claim C6 counterexample: a numbered line whose text part is seventy
characters long yields an option whose label is sixty-seven characters —
the line text is truncated to sixty-four characters but the numeral and
separator are prepended afterwards, so the label is not at most
sixty-four characters. -/
theorem claim6_label_overflow_cex :
    ((parseClaudeResponse
        (String.mk ('1' :: '.' :: ' ' :: List.replicate 70 'a'))).options.map
      fun o => o.label.length) = [67]
    ∧ ¬ (67 ≤ 64) := by
  exact ⟨by decide, by decide⟩

/-- Claim C6 (amended): the classifier returns at most six options (nine
numbered items yield exactly six), each option value is the numeral of its
line, and each label is the numeral followed by a dot, a space and the
trimmed line text truncated to sixty-four characters — hence bounded by
the numeral length plus sixty-six, not by sixty-four. -/
theorem claim6_cap_and_labels :
    (∀ s : String, (parseClaudeResponse s).options.length ≤ 6)
    ∧ (parseClaudeResponse
        "1. a\n2. b\n3. c\n4. d\n5. e\n6. f\n7. g\n8. h\n9. i\nWhich option?").options.length
        = 6
    ∧ (∀ s : String, ∀ o ∈ (parseClaudeResponse s).options,
        o ∈ yesNoOptions ∨
          ∃ p ∈ numberedScan (trimChars s.data),
            o.value = String.mk p.1 ∧
            o.label = String.mk (p.1 ++ '.' :: ' ' :: (trimChars p.2).take 64))
    ∧ (∀ s : String, ∀ o ∈ (parseClaudeResponse s).options,
        o.label.length ≤ o.value.length + 66) := by
  have h3 : ∀ s : String, ∀ o ∈ (parseClaudeResponse s).options,
      o ∈ yesNoOptions ∨
        ∃ p ∈ numberedScan (trimChars s.data),
          o.value = String.mk p.1 ∧
          o.label = String.mk (p.1 ++ '.' :: ' ' :: (trimChars p.2).take 64) := by
    intro s o ho
    by_cases h : (trimChars s.data).isEmpty = true
    · simp [parseClaudeResponse, h] at ho
    · simp only [parseClaudeResponse, h, Bool.not_eq_true, Bool.false_eq_true,
        if_false] at ho
      have ho2 := List.mem_of_mem_take ho
      split at ho2
      · split at ho2
        · exact Or.inl ho2
        · rcases List.mem_map.mp ho2 with ⟨p, hp, rfl⟩
          exact Or.inr ⟨p, hp, rfl, rfl⟩
      · rcases List.mem_map.mp ho2 with ⟨p, hp, rfl⟩
        exact Or.inr ⟨p, hp, rfl, rfl⟩
  refine ⟨?_, by decide, h3, ?_⟩
  · intro s
    by_cases h : (trimChars s.data).isEmpty = true
    · simp [parseClaudeResponse, h]
    · simp only [parseClaudeResponse, h, Bool.not_eq_true, Bool.false_eq_true,
        if_false, List.length_take]
      omega
  · intro s o ho
    rcases h3 s o ho with hy | ⟨p, -, hv, hl⟩
    · rcases (by simpa [yesNoOptions] using hy :
        o = ({ label := "Yes, go ahead", value := "yes" } : TaskOption)
          ∨ o = { label := "No, skip", value := "no" }) with rfl | rfl
      · decide
      · decide
    · rw [hv, hl]
      show (p.1 ++ '.' :: ' ' :: (trimChars p.2).take 64).length
        ≤ (p.1).length + 66
      simp only [List.length_append, List.length_cons, List.length_take]
      omega

/-- Claim C6 witness: a concrete numbered option of a two-item response is
produced by the numbered scan and its label obeys the amended bound. -/
theorem claim6_cap_and_labels_witness :
    ({ label := "1. Ship now", value := "1" } : TaskOption)
        ∈ (parseClaudeResponse "1. Ship now\n2. Wait\nWhich option?").options
    ∧ (("1. Ship now" : String).length ≤ ("1" : String).length + 66) :=
  ⟨by decide,
    claim6_cap_and_labels.2.2.2 "1. Ship now\n2. Wait\nWhich option?"
      { label := "1. Ship now", value := "1" } (by decide)⟩

theorem parse_question_nonempty (s : String) :
    (parseClaudeResponse s).needsInput = true →
    ∃ q, (parseClaudeResponse s).question = some q ∧ q ≠ "" := by
  intro h
  by_cases he : (trimChars s.data).isEmpty = true
  · have : (parseClaudeResponse s).needsInput = false := by
      simp [parseClaudeResponse, he]
    rw [this] at h
    exact absurd h (by simp)
  · simp only [parseClaudeResponse, he, Bool.not_eq_true, Bool.false_eq_true,
      if_false] at h ⊢
    rw [if_pos h]
    refine ⟨_, rfl, ?_⟩
    intro hcontra
    have hnil : lastNonEmptyLine (trimChars s.data) = [] := by
      have := congrArg String.data hcontra
      simpa using this
    have h1 : endsWithQm (lastNonEmptyLine (trimChars s.data)) = true := by
      rw [Bool.and_eq_true] at h
      exact h.1
    rw [hnil] at h1
    exact absurd h1 (by decide)

theorem mem_updateTask_cancel (now : Nat) (tid : String) (s : TaskStore) :
    ∀ t ∈ updateTask now tid cancelUpdate s, t.id = tid →
      t.status = .failed ∧ t.result = some "Cancelled by user" := by
  intro t ht hid
  rcases List.mem_map.mp ht with ⟨t0, -, rfl⟩
  by_cases h : t0.id = tid
  · rw [if_pos h]
    exact ⟨rfl, rfl⟩
  · rw [if_neg h] at hid
    exact absurd hid h

/-- Claim C10: the callback payload round-trips — for a task id free of
colons, parsing the rendered payload recovers the id and the option value,
values containing colons being reassembled intact; a payload with fewer
than three fields or a wrong marker parses to nothing, and both a
non-parsing payload and an unknown task id make the handler return null
without touching the store. -/
theorem claim10_payload_roundtrip :
    (∀ (t v : String), ':' ∉ t.data →
        parseCallbackData ("atask:" ++ t ++ ":" ++ v) = some (t, v))
    ∧ (∀ (now : Nat) (cb : String) (store : TaskStore),
        parseCallbackData cb = none →
        handleTaskCallback now cb store = (none, store, []))
    ∧ (∀ cb : String,
        (splitOnChar ':' cb.data).length < 3 ∨
          (splitOnChar ':' cb.data).head? ≠ some "atask".data →
        parseCallbackData cb = none)
    ∧ (∀ (now : Nat) (cb : String) (store : TaskStore) (tid choice : String),
        parseCallbackData cb = some (tid, choice) →
        getTaskById tid store = none →
        handleTaskCallback now cb store = (none, store, [])) := by
  refine ⟨?_, ?_, ?_, ?_⟩
  · intro t v ht
    have hdata : ("atask:" ++ t ++ ":" ++ v).data
        = "atask".data ++ (':' :: (t.data ++ (':' :: v.data))) := by
      simp [String.data_append]
    have hsplit : splitOnChar ':' ("atask:" ++ t ++ ":" ++ v).data
        = "atask".data :: t.data :: splitOnChar ':' v.data := by
      rw [hdata, splitOnChar_append ':' _ _ (by decide),
        splitOnChar_append ':' _ _ ht]
    obtain ⟨x, xs, hx⟩ : ∃ x xs, splitOnChar ':' v.data = x :: xs := by
      cases hsp : splitOnChar ':' v.data with
      | nil => exact absurd hsp (splitOnChar_ne_nil ':' v.data)
      | cons x xs => exact ⟨x, xs, rfl⟩
    unfold parseCallbackData
    rw [hsplit]
    rw [if_neg (by
      rw [hx]
      simp)]
    show some (String.mk t.data,
        String.mk (joinColon (splitOnChar ':' v.data))) = some (t, v)
    rw [joinColon_split]
  · intro now cb store hp
    simp only [handleTaskCallback, hp]
  · intro cb hor
    rcases hor with h1 | h2
    · simp [parseCallbackData, h1]
    · simp [parseCallbackData, h2]
  · intro now cb store tid choice hp hget
    simp only [handleTaskCallback, hp, hget]

/-- Claim C10 witness: a concrete payload whose option value itself
contains a colon parses back to the exact id and value. -/
theorem claim10_payload_roundtrip_witness :
    parseCallbackData ("atask:" ++ "t1" ++ ":" ++ "a:b") = some ("t1", "a:b") :=
  claim10_payload_roundtrip.1 "t1" "a:b" (by decide)

/-- Claim C1: after a successful non-cancel choice on a paused task whose
stored metadata holds the snapshot, the paused assistant content and the
tool-use id, the resumed engine invocation receives exactly the stored
snapshot followed by one assistant turn with that content and one
synthetic tool-result turn for that tool-use id saying what the user
chose — the snapshot is a prefix, the length is the snapshot plus two
turns, and the list is never the single-turn fresh-start prompt. -/
theorem claim1_pause_resume_roundtrip :
    ∀ (now : Nat) (cb : String) (store : TaskStore) (res : CallbackRes)
      (store2 : TaskStore) (writes : List (String × TaskUpdate))
      (task : AsyncTask) (md : PauseMetadata),
      handleTaskCallback now cb store = (some res, store2, writes) →
      res.cancelled = false →
      getTaskById res.taskId store = some task →
      task.metadata = some md →
      (buildResumeMessages md.messages_snapshot md.assistant_content
          md.tool_use_id res.choice
        = md.messages_snapshot ++
            [ { role := .assistant, content := .blocks md.assistant_content },
              { role := .user,
                content := .blocks
                  [ContentBlock.toolResultStr md.tool_use_id
                    ("User chose: " ++ res.choice)] } ])
      ∧ ((buildResumeMessages md.messages_snapshot md.assistant_content
          md.tool_use_id res.choice).take md.messages_snapshot.length
        = md.messages_snapshot)
      ∧ ((buildResumeMessages md.messages_snapshot md.assistant_content
          md.tool_use_id res.choice).length = md.messages_snapshot.length + 2)
      ∧ (∀ p : String,
          buildResumeMessages md.messages_snapshot md.assistant_content
            md.tool_use_id res.choice ≠ initialMessages p) := by
  intro now cb store res store2 writes task md hcb hnc hget hmd
  refine ⟨rfl, List.take_left _ _, by simp [buildResumeMessages], ?_⟩
  intro p hcontra
  have hlen := congrArg List.length hcontra
  simp [buildResumeMessages, initialMessages] at hlen

/-- Claim C1 witness: tapping the second button of a concrete paused task
resolves the choice to its label and the resumed message list is exactly
the stored one-turn snapshot, the paused assistant turn, and the synthetic
tool-result turn. -/
theorem claim1_pause_resume_roundtrip_witness :
    buildResumeMessages wSnapshot9 wContent9 "toolu_9" "2. Wait a week"
      = [{ role := .user, content := .str "hello" },
         { role := .assistant,
           content := .blocks [ContentBlock.toolUse "toolu_9" "ask_user" "q"] },
         { role := .user,
           content := .blocks
            [ContentBlock.toolResultStr "toolu_9"
              "User chose: 2. Wait a week"] }] := by
  have h := (claim1_pause_resume_roundtrip 2 "atask:t9:2" wStore9
    { taskId := "t9", choice := "2. Wait a week", cancelled := false }
    (handleTaskCallback 2 "atask:t9:2" wStore9).2.1
    (handleTaskCallback 2 "atask:t9:2" wStore9).2.2
    wTask9 wMd9 (by decide) rfl (by decide) rfl).1
  simpa [wMd9, wSnapshot9, wContent9] using h

theorem pauseUpdate_pending (out : String) (sid : Option String)
    (h : (parseClaudeResponse out).needsInput = true) :
    ∃ q, (pauseUpdateOf (parseClaudeResponse out) sid).pending_question
      = some (some q) := by
  obtain ⟨q, hq, hne⟩ := parse_question_nonempty out h
  refine ⟨q, ?_⟩
  simp only [pauseUpdateOf, hq]
  rw [if_neg hne]

/-- Claim C3 counterexample: after cancelling a paused task it is terminal
(failed, result cancelled by user), yet a second cancel call on the same
task performs one more row write — writes do occur after the task reached
a terminal state. -/
theorem claim3_second_cancel_writes_cex :
    ((getTaskById "t1"
        (handleTaskCallback 2 "atask:t1:cancel"
          (handleTaskResponse 1 "t1" "1. A\n2. B\nWhich should I pick?" none
            [createdTask "t1" "chat" "prompt" 0]).2).2.1).map
      fun t => (t.status, t.result))
      = some (TStatus.failed, some "Cancelled by user")
    ∧ (handleTaskCallback 3 "atask:t1:cancel"
        (handleTaskCallback 2 "atask:t1:cancel"
          (handleTaskResponse 1 "t1" "1. A\n2. B\nWhich should I pick?" none
            [createdTask "t1" "chat" "prompt" 0]).2).2.1).2.2.length = 1 := by
  exact ⟨by decide, by decide⟩

/-- Claim C3 (amended): cancelling transitions the task to failed with the
cancellation result and returns the cancellation signal, so no engine
invocation follows; a second cancel re-issues the same write with
identical values, leaving status and result unchanged — idempotent in
effect, though a further write does occur. -/
theorem claim3_cancel_effect :
    ∀ (now now2 : Nat) (cb : String) (store : TaskStore) (tid : String)
      (task : AsyncTask),
      parseCallbackData cb = some (tid, "cancel") →
      getTaskById tid store = some task →
      (handleTaskCallback now cb store).1
          = some { taskId := tid, choice := "cancel", cancelled := true }
      ∧ (∀ t ∈ (handleTaskCallback now cb store).2.1, t.id = tid →
          t.status = .failed ∧ t.result = some "Cancelled by user")
      ∧ (∀ t ∈ (handleTaskCallback now2 cb
            (handleTaskCallback now cb store).2.1).2.1, t.id = tid →
          t.status = .failed ∧ t.result = some "Cancelled by user") := by
  intro now now2 cb store tid task hp hget
  have hrun : handleTaskCallback now cb store
      = (some { taskId := tid, choice := "cancel", cancelled := true },
        updateTask now tid cancelUpdate store, [(tid, cancelUpdate)]) := by
    simp [handleTaskCallback, hp, hget]
  obtain ⟨task2, hget2⟩ :
      ∃ task2, getTaskById tid (updateTask now tid cancelUpdate store)
        = some task2 := by
    rw [getTaskById_updateTask, hget]
    exact ⟨_, rfl⟩
  have hrun2 : handleTaskCallback now2 cb
        (updateTask now tid cancelUpdate store)
      = (some { taskId := tid, choice := "cancel", cancelled := true },
        updateTask now2 tid cancelUpdate
          (updateTask now tid cancelUpdate store),
        [(tid, cancelUpdate)]) := by
    simp [handleTaskCallback, hp, hget2]
  have hs1 : (handleTaskCallback now cb store).2.1
      = updateTask now tid cancelUpdate store := by rw [hrun]
  refine ⟨by rw [hrun], ?_, ?_⟩
  · rw [hs1]
    exact mem_updateTask_cancel now tid store
  · rw [hs1]
    have hs2 : (handleTaskCallback now2 cb
          (updateTask now tid cancelUpdate store)).2.1
        = updateTask now2 tid cancelUpdate
            (updateTask now tid cancelUpdate store) := by rw [hrun2]
    rw [hs2]
    exact mem_updateTask_cancel now2 tid _

/-- Claim C3 witness: cancelling the concrete paused fixture task returns
the cancellation signal. -/
theorem claim3_cancel_effect_witness :
    (handleTaskCallback 2 "atask:t9:cancel" wStore9).1
      = some { taskId := "t9", choice := "cancel", cancelled := true } :=
  (claim3_cancel_effect 2 3 "atask:t9:cancel" wStore9 "t9" wTask9
    (by decide) (by decide)).1

/-- Claim C5 counterexample: a reachable state violating the claimed
invariant — pausing a running task and then cancelling it leaves the task
failed while its pending question is still non-null, because the cancel
write does not clear the pending fields. -/
theorem claim5_pending_after_cancel_cex :
    ((getTaskById "t1"
        (handleTaskCallback 2 "atask:t1:cancel"
          (handleTaskResponse 1 "t1" "1. A\n2. B\nWhich should I pick?" none
            [createdTask "t1" "chat" "prompt" 0]).2).2.1).map
      fun t => (t.status, t.pending_question))
      = some (TStatus.failed, some "Which should I pick?") := by
  decide

/-- Claim C5 (amended): every operation that sets needs-input stores a
non-null pending question, choice handling clears the pending question and
options, and both task-queue operations preserve the forward direction of
the invariant (needs-input implies a pending question); but cancellation
and completion do not clear the pending fields, so the reverse direction
fails on a cancelled task. -/
theorem claim5_pending_invariant :
    (∀ (now : Nat) (tid out : String) (sid : Option String)
        (store : TaskStore),
      (∀ t ∈ store, pendingInvariant t) →
      ∀ t ∈ (handleTaskResponse now tid out sid store).2, pendingInvariant t)
    ∧ (∀ (now : Nat) (cb : String) (store : TaskStore),
      (∀ t ∈ store, pendingInvariant t) →
      ∀ t ∈ (handleTaskCallback now cb store).2.1, pendingInvariant t)
    ∧ (∀ (now : Nat) (cb : String) (store : TaskStore) (res : CallbackRes),
        (handleTaskCallback now cb store).1 = some res →
        res.cancelled = false →
        ∀ t ∈ (handleTaskCallback now cb store).2.1, t.id = res.taskId →
          t.pending_question = none ∧ t.pending_options = none)
    ∧ (∀ (now : Nat) (tid out : String) (sid : Option String)
        (store : TaskStore),
        (parseClaudeResponse out).needsInput = true →
        (parseClaudeResponse out).options ≠ [] →
        ∀ t ∈ (handleTaskResponse now tid out sid store).2, t.id = tid →
          t.status = .needs_input ∧ t.pending_question ≠ none)
    ∧ (∀ (now : Nat) (q : String) (opts : List TaskOption) (tuid : String)
        (msgs : List MessageParam) (rc : List ContentBlock) (t : AsyncTask),
        (applyTaskUpdate now (processorPauseUpdate q opts tuid msgs rc)
            t).status = .needs_input
        ∧ (applyTaskUpdate now (processorPauseUpdate q opts tuid msgs rc)
            t).pending_question = some q) := by
  refine ⟨?_, ?_, ?_, ?_, ?_⟩
  · intro now tid out sid store hstore t ht
    by_cases hcond : ((parseClaudeResponse out).needsInput
        && !(parseClaudeResponse out).options.isEmpty) = true
    · have hs : (handleTaskResponse now tid out sid store).2
          = updateTask now tid
              (pauseUpdateOf (parseClaudeResponse out) sid) store := by
        simp only [handleTaskResponse]
        rw [if_pos hcond]
      rw [hs] at ht
      rcases List.mem_map.mp ht with ⟨t0, ht0, rfl⟩
      by_cases hid : t0.id = tid
      · rw [if_pos hid]
        unfold pendingInvariant
        intro _
        have hni : (parseClaudeResponse out).needsInput = true := by
          rw [Bool.and_eq_true] at hcond
          exact hcond.1
        obtain ⟨q, hq⟩ := pauseUpdate_pending out sid hni
        show (applyTaskUpdate now
          (pauseUpdateOf (parseClaudeResponse out) sid)
          t0).pending_question ≠ none
        simp [applyTaskUpdate, hq]
      · rw [if_neg hid]
        exact hstore t0 ht0
    · have hs : (handleTaskResponse now tid out sid store).2
          = updateTask now tid
              (completeUpdateOf (parseClaudeResponse out) sid) store := by
        simp only [handleTaskResponse]
        rw [if_neg hcond]
      rw [hs] at ht
      rcases List.mem_map.mp ht with ⟨t0, ht0, rfl⟩
      by_cases hid : t0.id = tid
      · rw [if_pos hid]
        unfold pendingInvariant
        intro hstat
        simp [applyTaskUpdate, completeUpdateOf] at hstat
      · rw [if_neg hid]
        exact hstore t0 ht0
  · intro now cb store hstore t ht
    cases hp : parseCallbackData cb with
    | none =>
      have hs : (handleTaskCallback now cb store).2.1 = store := by
        simp only [handleTaskCallback, hp]
      rw [hs] at ht
      exact hstore t ht
    | some pr =>
      obtain ⟨tid, choice⟩ := pr
      cases hg : getTaskById tid store with
      | none =>
        have hs : (handleTaskCallback now cb store).2.1 = store := by
          simp only [handleTaskCallback, hp, hg]
        rw [hs] at ht
        exact hstore t ht
      | some task =>
        by_cases hc : choice = "cancel"
        · subst hc
          have hs : (handleTaskCallback now cb store).2.1
              = updateTask now tid cancelUpdate store := by
            simp [handleTaskCallback, hp, hg]
          rw [hs] at ht
          rcases List.mem_map.mp ht with ⟨t0, ht0, rfl⟩
          by_cases hid : t0.id = tid
          · rw [if_pos hid]
            unfold pendingInvariant
            intro hstat
            simp [applyTaskUpdate, cancelUpdate] at hstat
          · rw [if_neg hid]
            exact hstore t0 ht0
        · have hs : (handleTaskCallback now cb store).2.1
              = updateTask now tid
                  (choiceUpdateOf (resolveChoice task choice)) store := by
            simp [handleTaskCallback, hp, hg, hc]
          rw [hs] at ht
          rcases List.mem_map.mp ht with ⟨t0, ht0, rfl⟩
          by_cases hid : t0.id = tid
          · rw [if_pos hid]
            unfold pendingInvariant
            intro hstat
            simp [applyTaskUpdate, choiceUpdateOf] at hstat
          · rw [if_neg hid]
            exact hstore t0 ht0
  · intro now cb store res hres hnc t ht hid
    cases hp : parseCallbackData cb with
    | none =>
      simp only [handleTaskCallback, hp] at hres
      exact Option.noConfusion hres
    | some pr =>
      obtain ⟨tid, choice⟩ := pr
      cases hg : getTaskById tid store with
      | none =>
        simp only [handleTaskCallback, hp, hg] at hres
        exact Option.noConfusion hres
      | some task =>
        by_cases hc : choice = "cancel"
        · subst hc
          have hres2 : (handleTaskCallback now cb store).1
              = some { taskId := tid, choice := "cancel", cancelled := true } := by
            simp [handleTaskCallback, hp, hg]
          rw [hres2] at hres
          injection hres with h
          rw [← h] at hnc
          simp at hnc
        · have hrun : handleTaskCallback now cb store
              = (some { taskId := tid, choice := resolveChoice task choice, cancelled := false },
                updateTask now tid
                  (choiceUpdateOf (resolveChoice task choice)) store,
                [(tid, choiceUpdateOf (resolveChoice task choice))]) := by
            simp [handleTaskCallback, hp, hg, hc]
          have hres2 : res
              = { taskId := tid, choice := resolveChoice task choice, cancelled := false } := by
            rw [hrun] at hres
            injection hres with h
            exact h.symm
          have hs : (handleTaskCallback now cb store).2.1
              = updateTask now tid
                  (choiceUpdateOf (resolveChoice task choice)) store := by
            rw [hrun]
          rw [hs] at ht
          rcases List.mem_map.mp ht with ⟨t0, ht0, rfl⟩
          rw [hres2] at hid
          by_cases hid0 : t0.id = tid
          · rw [if_pos hid0]
            exact ⟨rfl, rfl⟩
          · rw [if_neg hid0] at hid ⊢
            exact absurd hid hid0
  · intro now tid out sid store hni hopts t ht hid
    have hcond : ((parseClaudeResponse out).needsInput
        && !(parseClaudeResponse out).options.isEmpty) = true := by
      rw [Bool.and_eq_true]
      refine ⟨hni, ?_⟩
      cases hopts2 : (parseClaudeResponse out).options with
      | nil => exact absurd hopts2 hopts
      | cons a as => rfl
    have hs : (handleTaskResponse now tid out sid store).2
        = updateTask now tid
            (pauseUpdateOf (parseClaudeResponse out) sid) store := by
      simp only [handleTaskResponse]
      rw [if_pos hcond]
    rw [hs] at ht
    rcases List.mem_map.mp ht with ⟨t0, ht0, rfl⟩
    by_cases hid0 : t0.id = tid
    · rw [if_pos hid0]
      obtain ⟨q, hq⟩ := pauseUpdate_pending out sid hni
      constructor
      · rfl
      · show (applyTaskUpdate now
          (pauseUpdateOf (parseClaudeResponse out) sid)
          t0).pending_question ≠ none
        simp [applyTaskUpdate, hq]
    · rw [if_neg hid0] at hid
      exact absurd hid hid0
  · intro now q opts tuid msgs rc t
    exact ⟨rfl, rfl⟩

/-- Claim C5 witness: the concrete task produced by the pause transition
satisfies the forward direction of the pending-question invariant. -/
theorem claim5_pending_invariant_witness :
    pendingInvariant wPausedT1 :=
  claim5_pending_invariant.1 1 "t1" "1. A\n2. B\nWhich should I pick?" none
    [createdTask "t1" "chat" "prompt" 0]
    (by
      intro t ht hst
      rw [List.mem_singleton] at ht
      subst ht
      simp [createdTask] at hst)
    wPausedT1 (by decide)

theorem flagTrue_updateTask_reminder (i j : String) (now : Nat)
    (s : TaskStore) (h : flagTrue i s) :
    flagTrue i (updateTask now j reminderUpdate s) := by
  intro t ht hid
  rcases List.mem_map.mp ht with ⟨t0, ht0, rfl⟩
  by_cases hj : t0.id = j
  · rw [if_pos hj]
    rfl
  · rw [if_neg hj] at hid ⊢
    exact h t0 ht0 hid

theorem flagTrue_updateTask_self (i : String) (now : Nat) (s : TaskStore) :
    flagTrue i (updateTask now i reminderUpdate s) := by
  intro t ht hid
  rcases List.mem_map.mp ht with ⟨t0, ht0, rfl⟩
  by_cases hj : t0.id = i
  · rw [if_pos hj]
    rfl
  · rw [if_neg hj] at hid
    exact absurd hid hj

theorem remindFold_count (now : Nat) (chatId : String)
    (sendOk : String → Bool) :
    ∀ (l : List AsyncTask) (s : TaskStore),
      (remindFold now chatId sendOk l s).count
        = (remindFold now chatId sendOk l s).ids.length := by
  intro l
  induction l with
  | nil => intro s; rfl
  | cons t rest ih =>
    intro s
    unfold remindFold
    by_cases h1 : t.chat_id ≠ chatId
    · rw [if_pos h1]
      exact ih s
    · rw [if_neg h1]
      by_cases h2 : sendOk t.id = true
      · rw [if_pos h2]
        simp only [List.length_cons]
        exact congrArg (· + 1) (ih _)
      · rw [if_neg h2]
        exact ih s

theorem remindFold_ids_from (now : Nat) (chatId : String)
    (sendOk : String → Bool) :
    ∀ (l : List AsyncTask) (s : TaskStore) (i : String),
      i ∈ (remindFold now chatId sendOk l s).ids → ∃ t ∈ l, t.id = i := by
  intro l
  induction l with
  | nil => intro s i hi; exact absurd hi (by simp [remindFold])
  | cons t rest ih =>
    intro s i hi
    unfold remindFold at hi
    by_cases h1 : t.chat_id ≠ chatId
    · rw [if_pos h1] at hi
      obtain ⟨t0, ht0, he⟩ := ih s i hi
      exact ⟨t0, List.mem_cons_of_mem t ht0, he⟩
    · rw [if_neg h1] at hi
      by_cases h2 : sendOk t.id = true
      · rw [if_pos h2] at hi
        rcases List.mem_cons.mp hi with rfl | hi2
        · exact ⟨t, List.mem_cons_self t rest, rfl⟩
        · obtain ⟨t0, ht0, he⟩ := ih _ i hi2
          exact ⟨t0, List.mem_cons_of_mem t ht0, he⟩
      · rw [if_neg h2] at hi
        obtain ⟨t0, ht0, he⟩ := ih s i hi
        exact ⟨t0, List.mem_cons_of_mem t ht0, he⟩

theorem remindFold_flag_preserved (now : Nat) (chatId : String)
    (sendOk : String → Bool) :
    ∀ (l : List AsyncTask) (s : TaskStore) (i : String),
      flagTrue i s → flagTrue i (remindFold now chatId sendOk l s).store := by
  intro l
  induction l with
  | nil => intro s i h; exact h
  | cons t rest ih =>
    intro s i h
    unfold remindFold
    by_cases h1 : t.chat_id ≠ chatId
    · rw [if_pos h1]
      exact ih s i h
    · rw [if_neg h1]
      by_cases h2 : sendOk t.id = true
      · rw [if_pos h2]
        exact ih _ i (flagTrue_updateTask_reminder i t.id now s h)
      · rw [if_neg h2]
        exact ih s i h

theorem remindFold_flag_set (now : Nat) (chatId : String)
    (sendOk : String → Bool) :
    ∀ (l : List AsyncTask) (s : TaskStore) (i : String),
      i ∈ (remindFold now chatId sendOk l s).ids →
      flagTrue i (remindFold now chatId sendOk l s).store := by
  intro l
  induction l with
  | nil => intro s i hi; exact absurd hi (by simp [remindFold])
  | cons t rest ih =>
    intro s i hi
    unfold remindFold at hi ⊢
    by_cases h1 : t.chat_id ≠ chatId
    · rw [if_pos h1] at hi ⊢
      exact ih s i hi
    · rw [if_neg h1] at hi ⊢
      by_cases h2 : sendOk t.id = true
      · rw [if_pos h2] at hi ⊢
        rcases List.mem_cons.mp hi with rfl | hi2
        · exact remindFold_flag_preserved now chatId sendOk rest _ t.id
            (flagTrue_updateTask_self t.id now s)
        · exact ih _ i hi2
      · rw [if_neg h2] at hi ⊢
        exact ih s i hi

theorem remindFold_ids_sublist (now : Nat) (chatId : String)
    (sendOk : String → Bool) :
    ∀ (l : List AsyncTask) (s : TaskStore),
      List.Sublist (remindFold now chatId sendOk l s).ids
        (l.map fun t => t.id) := by
  intro l
  induction l with
  | nil => intro s; simp [remindFold]
  | cons t rest ih =>
    intro s
    unfold remindFold
    by_cases h1 : t.chat_id ≠ chatId
    · rw [if_pos h1]
      exact (ih s).cons t.id
    · rw [if_neg h1]
      by_cases h2 : sendOk t.id = true
      · rw [if_pos h2]
        exact (ih _).cons₂ t.id
      · rw [if_neg h2]
        exact (ih s).cons t.id

theorem remindFold_store_ids (now : Nat) (chatId : String)
    (sendOk : String → Bool) :
    ∀ (l : List AsyncTask) (s : TaskStore),
      (remindFold now chatId sendOk l s).store.map (fun t => t.id)
        = s.map fun t => t.id := by
  intro l
  induction l with
  | nil => intro s; rfl
  | cons t rest ih =>
    intro s
    unfold remindFold
    by_cases h1 : t.chat_id ≠ chatId
    · rw [if_pos h1]
      exact ih s
    · rw [if_neg h1]
      by_cases h2 : sendOk t.id = true
      · rw [if_pos h2]
        rw [ih _, updateTask_ids]
      · rw [if_neg h2]
        exact ih s

theorem stale_not_flagged (now threshold : Nat) (s : TaskStore)
    (t : AsyncTask) (ht : t ∈ getStaleTasks now threshold s) :
    t ∈ s ∧ t.reminder_sent = false := by
  obtain ⟨hmem, hp⟩ := List.mem_filter.mp ht
  refine ⟨hmem, ?_⟩
  rw [Bool.and_eq_true, Bool.and_eq_true] at hp
  have := hp.1.2
  cases hrs : t.reminder_sent
  · rfl
  · rw [hrs] at this
    exact absurd this (by decide)

theorem checkStale_not_reminded (now : Nat) (chatId : String)
    (threshold : Nat) (sendOk : String → Bool) (s : TaskStore) (i : String)
    (h : flagTrue i s) :
    i ∉ (checkStaleTasks now chatId threshold sendOk s).ids := by
  intro hi
  obtain ⟨t, hts, hti⟩ :=
    remindFold_ids_from now chatId sendOk (getStaleTasks now threshold s) s i hi
  obtain ⟨hmem, hflag⟩ := stale_not_flagged now threshold s t hts
  have := h t hmem hti
  rw [hflag] at this
  exact absurd this (by decide)

theorem checkStale_flag_preserved (now : Nat) (chatId : String)
    (threshold : Nat) (sendOk : String → Bool) (s : TaskStore) (i : String)
    (h : flagTrue i s) :
    flagTrue i (checkStaleTasks now chatId threshold sendOk s).store :=
  remindFold_flag_preserved now chatId sendOk
    (getStaleTasks now threshold s) s i h

theorem timesReminded_zero (chatId : String) (threshold : Nat) (i : String) :
    ∀ (ps : List (Nat × (String → Bool))) (s : TaskStore),
      flagTrue i s → timesReminded i chatId threshold ps s = 0 := by
  intro ps
  induction ps with
  | nil => intro s _; rfl
  | cons p rest ih =>
    intro s h
    obtain ⟨now, ok⟩ := p
    simp only [timesReminded]
    rw [List.count_eq_zero.mpr (checkStale_not_reminded now chatId threshold
      ok s i h)]
    rw [ih _ (checkStale_flag_preserved now chatId threshold ok s i h)]

/-- Claim C8: each reminder call returns exactly the number of reminders
sent in that call, never reminds a task whose reminder flag is already
set, marks every reminded task, and — across arbitrarily many calls over
a store with distinct task ids — reminds each task at most once. -/
theorem claim8_reminder_single_fire :
    (∀ (now : Nat) (chatId : String) (threshold : Nat)
        (sendOk : String → Bool) (s : TaskStore),
      (checkStaleTasks now chatId threshold sendOk s).count
        = (checkStaleTasks now chatId threshold sendOk s).ids.length)
    ∧ (∀ (now : Nat) (chatId : String) (threshold : Nat)
        (sendOk : String → Bool) (s : TaskStore) (i : String),
        flagTrue i s →
        i ∉ (checkStaleTasks now chatId threshold sendOk s).ids)
    ∧ (∀ (now : Nat) (chatId : String) (threshold : Nat)
        (sendOk : String → Bool) (s : TaskStore) (i : String),
        i ∈ (checkStaleTasks now chatId threshold sendOk s).ids →
        flagTrue i (checkStaleTasks now chatId threshold sendOk s).store)
    ∧ (∀ (chatId : String) (threshold : Nat) (i : String)
        (ps : List (Nat × (String → Bool))) (s : TaskStore),
        (s.map fun t => t.id).Nodup →
        timesReminded i chatId threshold ps s ≤ 1) := by
  refine ⟨?_, ?_, ?_, ?_⟩
  · intro now chatId threshold sendOk s
    exact remindFold_count now chatId sendOk (getStaleTasks now threshold s) s
  · intro now chatId threshold sendOk s i h
    exact checkStale_not_reminded now chatId threshold sendOk s i h
  · intro now chatId threshold sendOk s i hi
    exact remindFold_flag_set now chatId sendOk
      (getStaleTasks now threshold s) s i hi
  · intro chatId threshold i ps
    induction ps with
    | nil => intro s _; exact Nat.zero_le 1
    | cons p rest ih =>
      intro s hnd
      obtain ⟨now, ok⟩ := p
      simp only [timesReminded]
      have hsub : List.Sublist (checkStaleTasks now chatId threshold ok s).ids
          (s.map fun t => t.id) :=
        List.Sublist.trans
          (remindFold_ids_sublist now chatId ok
            (getStaleTasks now threshold s) s)
          (List.Sublist.map (fun t => t.id) (List.filter_sublist s))
      have hndids : (checkStaleTasks now chatId threshold ok s).ids.Nodup :=
        List.Nodup.sublist hsub hnd
      have hcount : (checkStaleTasks now chatId threshold ok s).ids.count i ≤ 1 :=
        List.nodup_iff_count_le_one.mp hndids i
      by_cases hi : i ∈ (checkStaleTasks now chatId threshold ok s).ids
      · have hflag := remindFold_flag_set now chatId ok
          (getStaleTasks now threshold s) s i hi
        rw [timesReminded_zero chatId threshold i rest
          (checkStaleTasks now chatId threshold ok s).store hflag]
        omega
      · rw [List.count_eq_zero.mpr hi]
        have hnd2 : ((checkStaleTasks now chatId threshold ok
            s).store.map fun t => t.id).Nodup := by
          have hids := remindFold_store_ids now chatId ok
            (getStaleTasks now threshold s) s
          show ((remindFold now chatId ok (getStaleTasks now threshold s)
            s).store.map fun t => t.id).Nodup
          rw [hids]
          exact hnd
        have := ih (checkStaleTasks now chatId threshold ok s).store hnd2
        omega

/-- Claim C8 witness: two successive reminder sweeps over a store holding
one stale paused task remind it at most once. -/
theorem claim8_reminder_single_fire_witness :
    timesReminded "t1" "chat" 1000
      [(5000, fun _ => true), (9000, fun _ => true)] [wPausedT1] ≤ 1 :=
  claim8_reminder_single_fire.2.2.2 "chat" 1000 "t1"
    [(5000, fun _ => true), (9000, fun _ => true)] [wPausedT1] (by decide)

end Relay
